import Mathlib

/-!
Verification of the yamdb review-aggregation service against its source.

The development shallowly embeds the two source files of the repository:

* `api/management/commands/import_csv.py` — the CSV bulk importer
  (`Command.handle` and its inner `importer`);
* `api/views.py` — the auth endpoints (`GetJWTokenView.post`,
  `SignUpView.post`) and the nested review/comment viewsets
  (`ReviewViewSet`, `CommentViewSet`, `TitleViewSet`).

Repository code that is referenced by the views but whose file is not among
the sources (the permission class, the serializers' validation, the model
constraints, Django's token generator) is modelled from the specification;
each such definition carries a doc comment saying so.
-/

namespace Yamdb

/-! Section: CSV importer (`import_csv.py`) -/

/-- `FK_FIELDS` from `import_csv.py`: the field names treated as foreign
keys by the importer. -/
def FK_FIELDS : List String := ["author", "review", "title", "category", "genre"]

/-- The registered csv file names: the keys of `FILE_MODEL` in
`import_csv.py`, in dictionary order. -/
def FILE_MODEL_files : List String :=
  ["users.csv", "category.csv", "genre.csv", "titles.csv", "review.csv", "comments.csv"]

/-- Whether `pat` is an initial segment of `l`. -/
def charsLeadWith (pat : List Char) : List Char → Bool
  | [] => pat == []
  | c :: cs =>
    match pat with
    | [] => true
    | p :: ps => p == c && charsLeadWith ps cs

/-- Whether `pat` occurs as a contiguous run inside `l`. -/
def charsContain (pat : List Char) : List Char → Bool
  | [] => pat == []
  | c :: cs => charsLeadWith pat (c :: cs) || charsContain pat cs

/-- Python's `"_id" in field`: substring containment test. -/
def hasIdMark (field : String) : Bool :=
  charsContain ("_id".data) field.data

/-- The specification's condition on a column name — "its name ends in a
foreign-key suffix ('_id')" — written out over the characters, to be
compared with what the importer actually tests. -/
def specEndsInIdSuffix (field : String) : Bool :=
  charsLeadWith ("_id".data.reverse) field.data.reverse

/-- The column name the importer actually uses for a cell: the body of
`if "_id" in field: field = field[:-3]` — when the name contains the
substring `"_id"` its last three characters are dropped. -/
def effectiveField (field : String) : String :=
  if hasIdMark field then field.dropRight 3 else field

/-- Whether a column is treated as a foreign-key column: the importer's
`if field in FK_FIELDS` test, applied after the `"_id"` stripping. -/
def isFKColumn (field : String) : Bool :=
  decide (effectiveField field ∈ FK_FIELDS)

/-- A value stored in a constructed record: either a resolved reference to
an existing related record (`fk_model.objects.get(id=value)`) or the raw
cell text. -/
inductive FieldValue where
  | fkRef (id : String)
  | plain (v : String)
deriving DecidableEq, Repr

deriving instance DecidableEq for Except

/-- A csv row as produced by `DictReader`: column name / cell text pairs. -/
abbrev Row := List (String × String)

/-- A constructed model instance: resolved field name / value pairs. -/
abbrev Record := List (String × FieldValue)

/-- One iteration of `for field, value in row.items()` in the importer:
strip the `"_id"` mark, then either resolve the value as the id of an
existing related record (`objects.get` raises when the id is absent) or
pass the cell through as a plain value. `fkIds field` is the set of ids of
the related model for a foreign-key field. -/
def processField (fkIds : String → List String) (field value : String) :
    Except String (String × FieldValue) :=
  let f := effectiveField field
  if f ∈ FK_FIELDS then
    if value ∈ fkIds f then .ok (f, .fkRef value)
    else .error ("DoesNotExist: " ++ f ++ " id=" ++ value)
  else .ok (f, .plain value)

/-- The inner loop of `importer` building `kwargs` for one row; the first
failing `objects.get` aborts the whole call. -/
def processRow (fkIds : String → List String) : Row → Except String Record
  | [] => .ok []
  | (field, value) :: rest =>
    match processField fkIds field value with
    | .error e => .error e
    | .ok kv =>
      match processRow fkIds rest with
      | .error e => .error e
      | .ok kvs => .ok (kv :: kvs)

/-- The outer loop of `importer` building the `models` list, one record per
row; a failing row aborts the whole call before anything is inserted. -/
def buildModels (fkIds : String → List String) :
    List Row → Except String (List Record)
  | [] => .ok []
  | row :: rest =>
    match processRow fkIds row with
    | .error e => .error e
    | .ok kwargs =>
      match buildModels fkIds rest with
      | .error e => .error e
      | .ok ms => .ok (kwargs :: ms)

/-- `importer(csv_file, model)`: build every record of the file, then
`bulk_create` appends them to the model's table in one step. -/
def importFile (fkIds : String → List String) (rows : List Row)
    (table : List Record) : Except String (List Record) :=
  match buildModels fkIds rows with
  | .error e => .error e
  | .ok ms => .ok (table ++ ms)

/-- The table after running `importer`: unchanged when the call raises. -/
def runImportFile (fkIds : String → List String) (rows : List Row)
    (table : List Record) : List Record :=
  match importFile fkIds rows table with
  | .ok t => t
  | .error _ => table

/-- The message of the `KeyError` raised by `Command.handle` on an
unregistered file name. -/
def keyErrorMsg (name : String) : String :=
  "\x22" ++ name ++ "\x22| Неизвестное имя файла"

/-- The `if options["csv_file"]` branch of `Command.handle`: walk the
explicit arguments in order; an unregistered name raises `KeyError` at the
point it is reached, a registered one is imported into its model's table.
The database maps each registered file name to its model's table; the pair
returned is the database when the loop stops together with the raised
error, if any. -/
def handleArgs (csvData : String → List Row) (fkIds : String → String → List String) :
    List String → (String → List Record) → ((String → List Record) × Option String)
  | [], db => (db, none)
  | csvFile :: rest, db =>
    if csvFile ∈ FILE_MODEL_files then
      match importFile (fkIds csvFile) (csvData csvFile) (db csvFile) with
      | .ok t =>
        handleArgs csvData fkIds rest (fun f => if f = csvFile then t else db f)
      | .error e => (db, some e)
    else (db, some (keyErrorMsg csvFile))

/-- The `else` branch of `Command.handle`: import every registered file in
dictionary order, with no name check. -/
def importAllFiles (csvData : String → List Row) (fkIds : String → String → List String) :
    List String → (String → List Record) → ((String → List Record) × Option String)
  | [], db => (db, none)
  | csvFile :: rest, db =>
    match importFile (fkIds csvFile) (csvData csvFile) (db csvFile) with
    | .ok t =>
      importAllFiles csvData fkIds rest (fun f => if f = csvFile then t else db f)
    | .error e => (db, some e)

/-- `Command.handle`: with explicit arguments walk them, otherwise import
all registered files. -/
def handle (csvData : String → List Row) (fkIds : String → String → List String)
    (args : List String) (db : String → List Record) :
    ((String → List Record) × Option String) :=
  if args = [] then importAllFiles csvData fkIds FILE_MODEL_files db
  else handleArgs csvData fkIds args db

/-! Section: Users and auth (`views.py`: `GetJWTokenView`, `SignUpView`) -/

/-- The role enum carried on a user record. -/
inductive Role where
  | user
  | moderator
  | admin
deriving DecidableEq, Repr

/-- A user record. `state` stands for the mutable user field that Django's
token generator hashes into the confirmation code (the code becomes invalid
once that field changes). -/
structure User where
  id : Nat
  username : String
  email : String
  role : Role
  is_superuser : Bool
  state : Nat
deriving DecidableEq, Repr

/-- Modelled from the spec: `PasswordResetTokenGenerator.make_token` is
Django library code, not part of the sources; the spec says the
confirmation code is a keyed hash of the user id and a mutable user field.
The exact mixing is irrelevant to the claims; only `check_token` below is
load-bearing. -/
def make_token (key : Nat) (u : User) : Nat :=
  (key * 1000003 + u.id * 1009 + u.state) % 1000000007

/-- Modelled from the spec: `PasswordResetTokenGenerator.check_token`
accepts exactly the code produced for the user's current state. -/
def check_token (key : Nat) (u : User) (code : Nat) : Bool :=
  code == make_token key u

/-- Modelled from the spec: `AccessToken.for_user` (simplejwt library code)
issues a bearer token asserting the user's identity. -/
def accessTokenForUser (u : User) : Nat :=
  u.id

/-- A response body, as far as the claims need to distinguish them. -/
inductive Body where
  | fieldError (field msg : String)
  | tokenOf (token : Nat)
  | echo (username email : String)
deriving DecidableEq, Repr

/-- An HTTP response: status code plus body. -/
structure Response where
  status : Nat
  body : Body
deriving DecidableEq, Repr

/-- `User.objects.get(username=...)`: the lookup of `GetJWTokenView.post`. -/
def findByUsername (db : List User) (username : String) : Option User :=
  db.find? (fun u => u.username == username)

/-- `GetJWTokenView.post`: 404 when no user has the username, 201 with a
token when the confirmation code checks against the user's current state,
400 otherwise. -/
def getJWTokenPost (db : List User) (key : Nat) (username : String) (code : Nat) :
    Response :=
  match findByUsername db username with
  | none => ⟨404, .fieldError "username" "This username does not exist!"⟩
  | some user =>
    if check_token key user code then
      ⟨201, .tokenOf (accessTokenForUser user)⟩
    else
      ⟨400, .fieldError "confirmation_code" "Wrong confirmation_code"⟩

/-- Modelled from the spec: `GetCodeSerializer` lives in
`api/serializers.py`, which is not among the sources; the spec says signup
forbids the reserved value "me" as a username. -/
def getCodeValid (username : String) : Bool :=
  username != "me"

/-- Modelled from the spec: `SignUpSerializer` lives in
`api/serializers.py`, which is not among the sources; the spec says signup
validates uniqueness of both username and email and forbids "me". -/
def signUpValid (db : List User) (username email : String) : Bool :=
  username != "me"
    && db.all (fun u => u.username != username)
    && db.all (fun u => u.email != email)

/-- Modelled from the spec: the id the storage layer gives a newly created
user. -/
def freshUserId (db : List User) : Nat :=
  (db.foldr (fun u m => max u.id m) 0) + 1

/-- `User.objects.get(username=..., email=...)`: the create-or-fetch lookup
of `SignUpView.post`. -/
def findByUsernameAndEmail (db : List User) (username email : String) : Option User :=
  db.find? (fun u => u.username == username && u.email == email)

/-- What a signup request leaves behind: the user table, the response, and
the id of the user a fresh confirmation code was emailed to, if any. -/
structure SignUpResult where
  db : List User
  resp : Response
  codeIssuedTo : Option Nat
deriving DecidableEq, Repr

/-- `SignUpView.post`: validate, fetch the user matching both username and
email or else create one after the uniqueness validation, then email a
fresh confirmation code and echo the submitted identity with status 200. -/
def signUpPost (db : List User) (username email : String) : SignUpResult :=
  if getCodeValid username then
    match findByUsernameAndEmail db username email with
    | some user => ⟨db, ⟨200, .echo username email⟩, some user.id⟩
    | none =>
      if signUpValid db username email then
        let u : User := ⟨freshUserId db, username, email, .user, false, 0⟩
        ⟨db ++ [u], ⟨200, .echo username email⟩, some u.id⟩
      else
        ⟨db, ⟨400, .fieldError "username/email" "validation failed"⟩, none⟩
  else
    ⟨db, ⟨400, .fieldError "username" "reserved or invalid username"⟩, none⟩

/-! Section: Catalog and review store (`views.py`: `TitleViewSet`, `ReviewViewSet`,
`CommentViewSet`) -/

/-- A title, as far as the claims need it. -/
structure Title where
  id : Nat
  name : String
deriving DecidableEq, Repr

/-- A review: belongs to a title and an author, carries a score. -/
structure Review where
  id : Nat
  title_id : Nat
  author_id : Nat
  text : String
  score : Nat
deriving DecidableEq, Repr

/-- A comment: belongs to a review and an author. -/
structure Comment where
  id : Nat
  review_id : Nat
  author_id : Nat
  text : String
deriving DecidableEq, Repr

/-- The persistent store the viewsets operate on. -/
structure Store where
  titles : List Title
  reviews : List Review
  comments : List Comment
deriving DecidableEq, Repr

/-- `title.reviews.all()`: the reviews of one title. -/
def titleReviews (s : Store) (tid : Nat) : List Review :=
  s.reviews.filter (fun r => r.title_id == tid)

/-- The SQL `Avg` aggregate used by `TitleViewSet.queryset`'s
`annotate(rating=models.Avg("reviews__score"))`: `NULL` over the empty
bag, the sum divided by the count otherwise. -/
def sqlAvg (l : List ℚ) : Option ℚ :=
  match l with
  | [] => none
  | _ :: _ => some (l.sum / (l.length : ℚ))

/-- The `rating` annotation a title carries in every list/retrieve
response: computed from the current reviews on read, never stored on the
title record. -/
def titleRating (s : Store) (tid : Nat) : Option ℚ :=
  sqlAvg ((titleReviews s tid).map (fun r => (r.score : ℚ)))

/-- `ReviewViewSet.get_title`: `get_object_or_404(Title, id=title_id)`. -/
def get_title (s : Store) (tid : Nat) : Option Title :=
  s.titles.find? (fun t => t.id == tid)

/-- `CommentViewSet.get_review`:
`get_object_or_404(Review, title__id=title_id, id=review_id)`. -/
def get_review (s : Store) (tid rid : Nat) : Option Review :=
  s.reviews.find? (fun r => r.title_id == tid && r.id == rid)

/-- The id the storage layer gives a newly created review. -/
def freshReviewId (s : Store) : Nat :=
  (s.reviews.foldr (fun r m => max r.id m) 0) + 1

/-- The id the storage layer gives a newly created comment. -/
def freshCommentId (s : Store) : Nat :=
  (s.comments.foldr (fun c m => max c.id m) 0) + 1

/-- Modelled from the spec: the Review model's `(title, author)` unique
constraint and the serializer check enforcing it live in
`reviews/models.py` and `api/serializers.py`, which are not among the
sources; the spec says creating a second review for the same
`(title, author)` pair fails with a uniqueness violation. -/
def createReview (s : Store) (tid author : Nat) (txt : String) (score : Nat) :
    Except String (Store × Review) :=
  if s.reviews.any (fun r => r.title_id == tid && r.author_id == author) then
    .error "UNIQUE constraint failed: review.title, review.author"
  else
    let r : Review := ⟨freshReviewId s, tid, author, txt, score⟩
    .ok ({ s with reviews := s.reviews ++ [r] }, r)

/-- The store after a review-creation attempt: unchanged when it fails. -/
def runCreateReview (s : Store) (tid author : Nat) (txt : String) (score : Nat) :
    Store :=
  match createReview s tid author txt score with
  | .ok p => p.1
  | .error _ => s

/-- Comment creation; comments carry no uniqueness constraint. -/
def createComment (s : Store) (rid author : Nat) (txt : String) :
    Store × Comment :=
  let c : Comment := ⟨freshCommentId s, rid, author, txt⟩
  ({ s with comments := s.comments ++ [c] }, c)

/-- `GET titles/{tid}/reviews`: `ReviewViewSet.get_queryset`, 404 when the
title is missing. -/
def reviewListOp (s : Store) (tid : Nat) : Except Nat (List Review) :=
  match get_title s tid with
  | none => .error 404
  | some t => .ok (titleReviews s t.id)

/-- `POST titles/{tid}/reviews`: `ReviewViewSet.perform_create` — resolve
the parent title (404 when missing), stamp the requester as author, create
under the uniqueness constraint (400 on violation). -/
def reviewCreateOp (s : Store) (requesterId tid : Nat) (txt : String) (score : Nat) :
    Except Nat (Store × Review) :=
  match get_title s tid with
  | none => .error 404
  | some t =>
    match createReview s t.id requesterId txt score with
    | .ok p => .ok p
    | .error _ => .error 400

/-- `GET titles/{tid}/reviews/{rid}/comments`: `CommentViewSet.get_queryset`,
404 when no review with that id belongs to that title. -/
def commentListOp (s : Store) (tid rid : Nat) : Except Nat (List Comment) :=
  match get_review s tid rid with
  | none => .error 404
  | some r => .ok (s.comments.filter (fun c => c.review_id == r.id))

/-- `POST .../comments`: `CommentViewSet.perform_create` — resolve the
parent review (404 when missing) and stamp the requester as author. -/
def commentCreateOp (s : Store) (requesterId tid rid : Nat) (txt : String) :
    Except Nat (Store × Comment) :=
  match get_review s tid rid with
  | none => .error 404
  | some r => .ok (createComment s r.id requesterId txt)

/-! Section: Permission layer -/

/-- HTTP methods the viewsets see. -/
inductive Method where
  | GET
  | HEAD
  | OPTIONS
  | POST
  | PUT
  | PATCH
  | DELETE
deriving DecidableEq, Repr

/-- Django REST framework's `SAFE_METHODS`. -/
def isSafeMethod : Method → Bool
  | .GET => true
  | .HEAD => true
  | .OPTIONS => true
  | _ => false

/-- Modelled from the spec: the permission class
`SafeOrAuthorOrExceedingRoleOnly` lives in `api/permissions.py`, which is
not among the sources; the spec says read-only methods are always allowed
and mutating methods are allowed iff the requester is the resource's
author, has role moderator or admin, or is a superuser. -/
def safeOrAuthorOrExceedingRole (m : Method) (requester : User) (authorId : Nat) :
    Bool :=
  isSafeMethod m
    || requester.id == authorId
    || requester.role == .moderator
    || requester.role == .admin
    || requester.is_superuser

/-- `{ r with text := txt }` applied to one review: the effect of a PATCH
on the review's text. -/
def patchReviewText (s : Store) (rid : Nat) (txt : String) : Store :=
  { s with reviews := s.reviews.map (fun r => if r.id = rid then { r with text := txt } else r) }

/-- Deletion of one review. -/
def deleteReview (s : Store) (rid : Nat) : Store :=
  { s with reviews := s.reviews.filter (fun r => r.id != rid) }

/-- A mutating detail request against `ReviewViewSet`: resolve the parent
title and the review (404 when missing), check the object permission
(403 when denied), then apply the method. -/
def reviewDetailMutate (s : Store) (m : Method) (requester : User) (tid rid : Nat)
    (txt : String) : Except Nat Store :=
  match get_title s tid with
  | none => .error 404
  | some _ =>
    match get_review s tid rid with
    | none => .error 404
    | some r =>
      if safeOrAuthorOrExceedingRole m requester r.author_id then
        match m with
        | .PATCH => .ok (patchReviewText s rid txt)
        | .DELETE => .ok (deleteReview s rid)
        | _ => .ok s
      else .error 403

/-! Section: Reachable store states -/

/-- The store states reachable through the API's mutating operations on
titles, reviews and comments. -/
inductive Reachable : Store → Prop where
  | init : Reachable ⟨[], [], []⟩
  | addTitle (t : Title) (s : Store) :
      Reachable s → Reachable { s with titles := s.titles ++ [t] }
  | addReview (s : Store) (tid author : Nat) (txt : String) (score : Nat)
      (s' : Store) (r : Review) :
      Reachable s → createReview s tid author txt score = .ok (s', r) →
      Reachable s'
  | patchReview (s : Store) (rid : Nat) (txt : String) :
      Reachable s → Reachable (patchReviewText s rid txt)
  | delReview (s : Store) (rid : Nat) :
      Reachable s → Reachable (deleteReview s rid)
  | addComment (s : Store) (rid author : Nat) (txt : String) :
      Reachable s → Reachable (createComment s rid author txt).1

/-- The `(title, author)` uniqueness invariant on the review table. -/
def uniqueTitleAuthor (s : Store) : Prop :=
  List.Pairwise
    (fun a b => ¬(a.title_id = b.title_id ∧ a.author_id = b.author_id))
    s.reviews

/-! Section: Concrete instances used to exercise the theorems -/

/-- Empty csv data: every file reads as zero rows. -/
def csvData0 : String → List Row := fun _ => []

/-- No related records exist for any foreign key of any file. -/
def fkIds0 : String → String → List String := fun _ _ => []

/-- No related records exist for any foreign-key field. -/
def fkNone : String → List String := fun _ => []

/-- An empty database: every model's table is empty. -/
def dbEmpty : String → List Record := fun _ => []

/-- A registered user. -/
def user1 : User := ⟨1, "alice", "alice@example.com", .user, false, 0⟩

/-- An authenticated plain user who authored the review of `store1`. -/
def plainU1 : User := ⟨1, "bob", "bob@example.com", .user, false, 0⟩

/-- An authenticated plain user who authored nothing. -/
def plainU2 : User := ⟨2, "carol", "carol@example.com", .user, false, 0⟩

/-- The empty store. -/
def storeEmpty : Store := ⟨[], [], []⟩

/-- A store holding one title and nothing else. -/
def store0 : Store := ⟨[⟨1, "T"⟩], [], []⟩

/-- `store0` after user 1 reviewed title 1. -/
def store1 : Store :=
  { store0 with reviews := store0.reviews ++ [⟨freshReviewId store0, 1, 1, "good", 5⟩] }

/-- The review created for user 9 on title 1 of `store0`. -/
def rev9 : Review := ⟨1, 1, 9, "t", 5⟩

/-- `store0` after user 9 reviewed title 1. -/
def store9 : Store := { store0 with reviews := store0.reviews ++ [rev9] }

/-- A store whose title 1 has two reviews, scored 4 and 7. -/
def storeRated : Store :=
  ⟨[⟨1, "T"⟩], [⟨1, 1, 1, "ok", 4⟩, ⟨2, 1, 2, "great", 7⟩], []⟩

/-! Section: Importer lemmas -/

lemma processField_fk_hit (fkIds : String → List String) (field value : String)
    (hfk : isFKColumn field = true) (hmem : value ∈ fkIds (effectiveField field)) :
    processField fkIds field value = .ok (effectiveField field, .fkRef value) := by
  have h : effectiveField field ∈ FK_FIELDS := of_decide_eq_true hfk
  simp [processField, h, hmem]

lemma processField_fk_miss (fkIds : String → List String) (field value : String)
    (hfk : isFKColumn field = true) (hmiss : value ∉ fkIds (effectiveField field)) :
    processField fkIds field value =
      .error ("DoesNotExist: " ++ effectiveField field ++ " id=" ++ value) := by
  have h : effectiveField field ∈ FK_FIELDS := of_decide_eq_true hfk
  simp [processField, h, hmiss]

lemma processField_plain (fkIds : String → List String) (field value : String)
    (hfk : isFKColumn field = false) :
    processField fkIds field value = .ok (effectiveField field, .plain value) := by
  have h : effectiveField field ∉ FK_FIELDS := of_decide_eq_false hfk
  simp [processField, h]

lemma processRow_error_of_mem (fkIds : String → List String) (row : Row)
    (field value : String) (hmem : (field, value) ∈ row)
    (hfk : isFKColumn field = true) (hmiss : value ∉ fkIds (effectiveField field)) :
    ∃ e, processRow fkIds row = .error e := by
  induction row with
  | nil => cases hmem
  | cons hd tl ih =>
    rcases List.mem_cons.mp hmem with heq | htl
    · refine ⟨"DoesNotExist: " ++ effectiveField field ++ " id=" ++ value, ?_⟩
      rw [← heq]
      simp [processRow, processField_fk_miss fkIds field value hfk hmiss]
    · obtain ⟨e, he⟩ := ih htl
      obtain ⟨f, v⟩ := hd
      cases hpf : processField fkIds f v with
      | error e' => exact ⟨e', by simp [processRow, hpf]⟩
      | ok kv => exact ⟨e, by simp [processRow, hpf, he]⟩

lemma buildModels_error_of_mem (fkIds : String → List String) (rows : List Row)
    (row : Row) (hrow : row ∈ rows) (he : ∃ e, processRow fkIds row = .error e) :
    ∃ e, buildModels fkIds rows = .error e := by
  induction rows with
  | nil => cases hrow
  | cons hd tl ih =>
    rcases List.mem_cons.mp hrow with heq | htl
    · subst heq
      obtain ⟨e, hpe⟩ := he
      exact ⟨e, by simp [buildModels, hpe]⟩
    · obtain ⟨e, hbe⟩ := ih htl
      cases hpr : processRow fkIds hd with
      | error e' => exact ⟨e', by simp [buildModels, hpr]⟩
      | ok kw => exact ⟨e, by simp [buildModels, hpr, hbe]⟩

/-! Section: C1 -/

/-- C1: counterexample — the importer resolves the column named plainly
"author" as a foreign key even though that name does not end in the
`"_id"` suffix, so participation in foreign-key resolution is not
equivalent to the name ending in `"_id"`. -/
theorem importer_fk_not_exactly_id_suffix :
    processField (fun _ => ["1"]) "author" "1" = .ok ("author", .fkRef "1")
    ∧ specEndsInIdSuffix "author" = false := by
  decide

/-- C1 (amended): a column of an input row participates in foreign-key
resolution exactly when its effective name — the name with its last three
characters dropped when it contains the substring `"_id"`, else the name
itself — is one of the registered foreign-key fields `author`, `review`,
`title`, `category`, `genre`; for such a column the cell value is resolved
as the id of an existing related record (an error when the id does not
exist); every other column is passed through as a plain field value under
its effective name. -/
theorem importer_fk_resolution (fkIds : String → List String) (field value : String) :
    (isFKColumn field = true ↔ effectiveField field ∈ FK_FIELDS)
  ∧ (isFKColumn field = true → value ∈ fkIds (effectiveField field) →
      processField fkIds field value = .ok (effectiveField field, .fkRef value))
  ∧ (isFKColumn field = true → value ∉ fkIds (effectiveField field) →
      processField fkIds field value =
        .error ("DoesNotExist: " ++ effectiveField field ++ " id=" ++ value))
  ∧ (isFKColumn field = false →
      processField fkIds field value = .ok (effectiveField field, .plain value)) :=
  ⟨by simp [isFKColumn],
   processField_fk_hit fkIds field value,
   processField_fk_miss fkIds field value,
   processField_plain fkIds field value⟩

/-- C1: the amended theorem applied to a foreign-key column with an
existing related id and to a plain column. -/
theorem importer_fk_resolution_witness :
    processField (fun _ => ["7"]) "title_id" "7" = .ok ("title", .fkRef "7")
    ∧ processField (fun _ => ["7"]) "address" "x" = .ok ("address", .plain "x") := by
  constructor
  · have h := (importer_fk_resolution (fun _ => ["7"]) "title_id" "7").2.1
      (by decide) (by decide)
    have he : effectiveField "title_id" = "title" := by decide
    rw [he] at h
    exact h
  · have h := (importer_fk_resolution (fun _ => ["7"]) "address" "x").2.2.2 (by decide)
    have he : effectiveField "address" = "address" := by decide
    rw [he] at h
    exact h

/-! Section: C2 -/

/-- C2: if any row of a csv file has a foreign-key column whose value is
not the id of an existing related record, importing that file fails and
the file's table receives zero rows — the bulk insert happens only after
every row has been resolved. -/
theorem import_missing_fk_aborts_file (fkIds : String → List String)
    (rows : List Row) (table : List Record) (row : Row) (field value : String)
    (hrow : row ∈ rows) (hmem : (field, value) ∈ row)
    (hfk : isFKColumn field = true) (hmiss : value ∉ fkIds (effectiveField field)) :
    (∃ e, importFile fkIds rows table = .error e)
    ∧ runImportFile fkIds rows table = table := by
  obtain ⟨e, he⟩ := buildModels_error_of_mem fkIds rows row hrow
    (processRow_error_of_mem fkIds row field value hmem hfk hmiss)
  exact ⟨⟨e, by simp [importFile, he]⟩, by simp [runImportFile, importFile, he]⟩

/-- C2: the theorem applied to a one-row file whose `author` column
references id 1 while no related record exists. -/
theorem import_missing_fk_aborts_file_witness :
    (∃ e, importFile fkNone [[("author", "1")]] [] = .error e)
    ∧ runImportFile fkNone [[("author", "1")]] [] = [] :=
  import_missing_fk_aborts_file fkNone [[("author", "1")]] [] [("author", "1")]
    "author" "1" (by decide) (by decide) (by decide) (by decide)

/-! Section: Command-level lemmas -/

lemma handleArgs_ok_mem_keys (csvData : String → List Row)
    (fkIds : String → String → List String) (args : List String) :
    ∀ db, (handleArgs csvData fkIds args db).2 = none →
      ∀ a ∈ args, a ∈ FILE_MODEL_files := by
  induction args with
  | nil => intro db _ a ha; cases ha
  | cons hd tl ih =>
    intro db h a ha
    by_cases hk : hd ∈ FILE_MODEL_files
    · cases himp : importFile (fkIds hd) (csvData hd) (db hd) with
      | ok t =>
        rcases List.mem_cons.mp ha with rfl | htl
        · exact hk
        · exact ih _ (by simpa [handleArgs, hk, himp] using h) a htl
      | error e => simp [handleArgs, hk, himp] at h
    · simp [handleArgs, hk] at h

lemma handleArgs_untouched_name (csvData : String → List Row)
    (fkIds : String → String → List String) (args : List String) :
    ∀ db f, f ∉ args → (handleArgs csvData fkIds args db).1 f = db f := by
  induction args with
  | nil => intro db f _; rfl
  | cons hd tl ih =>
    intro db f hf
    have hfh : f ≠ hd := fun h => hf (h ▸ List.mem_cons_self hd tl)
    have hft : f ∉ tl := fun h => hf (List.mem_cons_of_mem hd h)
    by_cases hk : hd ∈ FILE_MODEL_files
    · cases himp : importFile (fkIds hd) (csvData hd) (db hd) with
      | ok t =>
        simp only [handleArgs, hk, if_true, himp]
        rw [ih _ f hft]
        simp [hfh]
      | error e => simp [handleArgs, hk, himp]
    · simp [handleArgs, hk]

lemma handleArgs_append_unknown (csvData : String → List Row)
    (fkIds : String → String → List String) (bad : String)
    (hbad : bad ∉ FILE_MODEL_files) (rest : List String) :
    ∀ (pre : List String) (db), (handleArgs csvData fkIds pre db).2 = none →
      handleArgs csvData fkIds (pre ++ bad :: rest) db =
        ((handleArgs csvData fkIds pre db).1, some (keyErrorMsg bad)) := by
  intro pre
  induction pre with
  | nil => intro db _; simp [handleArgs, hbad]
  | cons hd tl ih =>
    intro db h
    by_cases hk : hd ∈ FILE_MODEL_files
    · cases himp : importFile (fkIds hd) (csvData hd) (db hd) with
      | ok t =>
        have h' : (handleArgs csvData fkIds tl
            (fun f => if f = hd then t else db f)).2 = none := by
          simpa [handleArgs, hk, himp] using h
        simp only [List.cons_append, handleArgs, hk, if_true, himp]
        exact ih _ h'
      | error e => simp [handleArgs, hk, himp] at h
    · simp [handleArgs, hk] at h

/-! Section: C10 -/

/-- C10: with explicit file-name arguments, each argument is checked in
order against the registered set; the first unregistered name raises a
`KeyError` at the point it is reached — nothing is imported for that name
or for anything after it, while the files named before it have been fully
imported and remain in the database. -/
theorem handle_unknown_file_aborts (csvData : String → List Row)
    (fkIds : String → String → List String) (pre : List String) (bad : String)
    (rest : List String) (db : String → List Record)
    (hpre : (handleArgs csvData fkIds pre db).2 = none)
    (hbad : bad ∉ FILE_MODEL_files) :
    handle csvData fkIds (pre ++ bad :: rest) db =
      ((handleArgs csvData fkIds pre db).1, some (keyErrorMsg bad))
    ∧ (handle csvData fkIds (pre ++ bad :: rest) db).1 bad = db bad := by
  have hne : pre ++ bad :: rest ≠ [] := by simp
  have heq : handle csvData fkIds (pre ++ bad :: rest) db
      = handleArgs csvData fkIds (pre ++ bad :: rest) db := by
    simp [handle, hne]
  have hmain := handleArgs_append_unknown csvData fkIds bad hbad rest pre db hpre
  have hnotin : bad ∉ pre := fun hmem =>
    hbad (handleArgs_ok_mem_keys csvData fkIds pre db hpre bad hmem)
  refine ⟨heq ▸ hmain, ?_⟩
  rw [heq, hmain]
  exact handleArgs_untouched_name csvData fkIds pre db bad hnotin

/-- C10: the theorem applied to the argument list
`["users.csv", "lol.csv", "genre.csv"]` over an empty database. -/
theorem handle_unknown_file_aborts_witness :
    (handleArgs csvData0 fkIds0 ["users.csv"] dbEmpty).2 = none
    ∧ (handle csvData0 fkIds0 (["users.csv"] ++ "lol.csv" :: ["genre.csv"]) dbEmpty).2
        = some (keyErrorMsg "lol.csv")
    ∧ (handle csvData0 fkIds0 (["users.csv"] ++ "lol.csv" :: ["genre.csv"]) dbEmpty).1
        "lol.csv" = dbEmpty "lol.csv" := by
  have h := handle_unknown_file_aborts csvData0 fkIds0 ["users.csv"] "lol.csv"
    ["genre.csv"] dbEmpty (by decide) (by decide)
  exact ⟨by decide, by rw [h.1], h.2⟩

/-! Section: C3 -/

/-- C3: a token-exchange request has exactly one of three outcomes — 404
when no user carries the username, 400 when the user exists but the
confirmation code does not check against the user's current state, and 201
with a bearer token for that user otherwise. -/
theorem token_exchange_trichotomy (db : List User) (key : Nat) (username : String)
    (code : Nat) :
    ((getJWTokenPost db key username code).status = 404 ↔
        findByUsername db username = none)
  ∧ ((getJWTokenPost db key username code).status = 400 ↔
        ∃ u, findByUsername db username = some u ∧ check_token key u code = false)
  ∧ ((getJWTokenPost db key username code).status = 201 ↔
        ∃ u, findByUsername db username = some u ∧ check_token key u code = true)
  ∧ (∀ u, findByUsername db username = some u → check_token key u code = true →
        getJWTokenPost db key username code = ⟨201, .tokenOf (accessTokenForUser u)⟩)
  ∧ ((getJWTokenPost db key username code).status = 404
      ∨ (getJWTokenPost db key username code).status = 400
      ∨ (getJWTokenPost db key username code).status = 201) := by
  cases hf : findByUsername db username with
  | none =>
    refine ⟨by simp [getJWTokenPost, hf], by simp [getJWTokenPost, hf], ?_, ?_, ?_⟩
      <;> simp [getJWTokenPost, hf]
  | some u =>
    cases hc : check_token key u code with
    | false =>
      refine ⟨?_, ?_, ?_, ?_, ?_⟩ <;> simp [getJWTokenPost, hf, hc]
    | true =>
      refine ⟨?_, ?_, ?_, ?_, ?_⟩ <;> simp [getJWTokenPost, hf, hc]

/-- C3: the theorem applied to a database holding one user presenting the
code generated for that user's current state. -/
theorem token_exchange_trichotomy_witness :
    getJWTokenPost [user1] 5 "alice" (make_token 5 user1) =
      ⟨201, .tokenOf (accessTokenForUser user1)⟩ :=
  (token_exchange_trichotomy [user1] 5 "alice" (make_token 5 user1)).2.2.2.1 user1
    (by decide) (by decide)

/-! Section: C7 -/

/-- C7: a signup request whose username is the reserved value "me" fails
validation with status 400, no matter the email: the user table is
unchanged and no confirmation code is issued. -/
theorem signup_me_rejected (db : List User) (email : String) :
    (signUpPost db "me" email).db = db
  ∧ (signUpPost db "me" email).resp.status = 400
  ∧ (signUpPost db "me" email).codeIssuedTo = none := by
  refine ⟨?_, ?_, ?_⟩ <;> simp [signUpPost, getCodeValid]

/-! Section: C8 -/

/-- C8: a valid signup either fetches the user matching both the submitted
username and email — creating nothing and issuing a fresh confirmation
code for that user — or, when both fields are unused, creates a new user
and issues a code for it; both success cases answer 200 echoing back the
submitted username and email. -/
theorem signup_create_or_fetch (db : List User) (username email : String)
    (hv : username ≠ "me") :
    (∀ u, findByUsernameAndEmail db username email = some u →
        signUpPost db username email = ⟨db, ⟨200, .echo username email⟩, some u.id⟩)
  ∧ ((∀ u ∈ db, u.username ≠ username) → (∀ u ∈ db, u.email ≠ email) →
        signUpPost db username email =
          ⟨db ++ [⟨freshUserId db, username, email, .user, false, 0⟩],
           ⟨200, .echo username email⟩, some (freshUserId db)⟩) := by
  have hvb : getCodeValid username = true := by
    simpa [getCodeValid] using hv
  constructor
  · intro u hu
    simp [signUpPost, hvb, hu]
  · intro hname hemail
    have hfind : findByUsernameAndEmail db username email = none := by
      refine List.find?_eq_none.mpr fun u hu => ?_
      simp [hname u hu]
    have hvalid : signUpValid db username email = true := by
      simp only [signUpValid, Bool.and_eq_true, List.all_eq_true]
      refine ⟨⟨by simpa [bne_iff_ne] using hv, fun u hu => ?_⟩, fun u hu => ?_⟩
      · simpa [bne_iff_ne] using hname u hu
      · simpa [bne_iff_ne] using hemail u hu
    simp [signUpPost, hvb, hfind, hvalid]

/-- C8: the theorem applied once to a signup repeating an existing user's
identity and once to a signup with fresh username and email. -/
theorem signup_create_or_fetch_witness :
    signUpPost [user1] "alice" "alice@example.com" =
      ⟨[user1], ⟨200, .echo "alice" "alice@example.com"⟩, some 1⟩
    ∧ signUpPost [user1] "dave" "dave@example.com" =
      ⟨[user1] ++ [⟨freshUserId [user1], "dave", "dave@example.com", .user, false, 0⟩],
       ⟨200, .echo "dave" "dave@example.com"⟩, some (freshUserId [user1])⟩ :=
  ⟨(signup_create_or_fetch [user1] "alice" "alice@example.com" (by decide)).1 user1
      (by decide),
   (signup_create_or_fetch [user1] "dave" "dave@example.com" (by decide)).2
      (by decide) (by decide)⟩

/-! Section: C4 -/

/-- C4: read-only methods are always allowed against a review or comment;
a mutating method is allowed iff the requester is the author, a moderator,
an admin, or a superuser; in particular a plain authenticated user gets 403
on PATCH/DELETE of another user's review and succeeds on their own. -/
theorem review_permission_matrix :
    (∀ (m : Method) (u : User) (a : Nat), isSafeMethod m = true →
        safeOrAuthorOrExceedingRole m u a = true)
  ∧ (∀ (m : Method) (u : User) (a : Nat), isSafeMethod m = false →
        (safeOrAuthorOrExceedingRole m u a = true ↔
          (u.id = a ∨ u.role = .moderator ∨ u.role = .admin ∨ u.is_superuser = true)))
  ∧ (∀ (s : Store) (u : User) (tid rid : Nat) (r : Review) (txt : String),
        u.role = .user → u.is_superuser = false → get_title s tid ≠ none →
        get_review s tid rid = some r →
        (r.author_id ≠ u.id →
          reviewDetailMutate s .PATCH u tid rid txt = .error 403
          ∧ reviewDetailMutate s .DELETE u tid rid txt = .error 403)
        ∧ (r.author_id = u.id →
          reviewDetailMutate s .PATCH u tid rid txt = .ok (patchReviewText s rid txt)
          ∧ reviewDetailMutate s .DELETE u tid rid txt = .ok (deleteReview s rid))) := by
  refine ⟨?_, ?_, ?_⟩
  · intro m u a h
    simp [safeOrAuthorOrExceedingRole, h]
  · intro m u a h
    simp only [safeOrAuthorOrExceedingRole, h, Bool.false_or, Bool.or_eq_true,
      beq_iff_eq]
    tauto
  · intro s u tid rid r txt hrole hsup htitle hrev
    obtain ⟨t, ht⟩ := Option.ne_none_iff_exists'.mp htitle
    have hperm : ∀ m, isSafeMethod m = false →
        safeOrAuthorOrExceedingRole m u r.author_id = (u.id == r.author_id) := by
      intro m hm
      simp [safeOrAuthorOrExceedingRole, hm, hrole, hsup,
        (by decide : (Role.user == Role.moderator) = false),
        (by decide : (Role.user == Role.admin) = false)]
    constructor
    · intro hne
      have hb : (u.id == r.author_id) = false := by
        simp [beq_eq_false_iff_ne, Ne.symm hne]
      refine ⟨?_, ?_⟩
      · simp [reviewDetailMutate, ht, hrev, hperm .PATCH rfl, hb]
      · simp [reviewDetailMutate, ht, hrev, hperm .DELETE rfl, hb]
    · intro heq
      have hb : (u.id == r.author_id) = true := by simp [heq]
      refine ⟨?_, ?_⟩
      · simp [reviewDetailMutate, ht, hrev, hperm .PATCH rfl, hb]
      · simp [reviewDetailMutate, ht, hrev, hperm .DELETE rfl, hb]

/-- C4: the theorem applied to `store1`, whose only review was authored by
user 1, for the plain users 2 (not the author) and 1 (the author). -/
theorem review_permission_matrix_witness :
    reviewDetailMutate store1 .PATCH plainU2 1 1 "edited" = .error 403
  ∧ reviewDetailMutate store1 .DELETE plainU2 1 1 "edited" = .error 403
  ∧ reviewDetailMutate store1 .PATCH plainU1 1 1 "edited"
      = .ok (patchReviewText store1 1 "edited")
  ∧ reviewDetailMutate store1 .DELETE plainU1 1 1 "edited"
      = .ok (deleteReview store1 1) := by
  have h2 := (review_permission_matrix.2.2 store1 plainU2 1 1 ⟨1, 1, 1, "good", 5⟩
    "edited" rfl rfl (by decide) (by decide)).1 (by decide)
  have h1 := (review_permission_matrix.2.2 store1 plainU1 1 1 ⟨1, 1, 1, "good", 5⟩
    "edited" rfl rfl (by decide) (by decide)).2 (by decide)
  exact ⟨h2.1, h2.2, h1.1, h1.2⟩

/-! Section: C5 -/

/-- C5: the rating a title carries on list/retrieve is the arithmetic mean
of its reviews' scores, and is null exactly when the title has zero
reviews; it is a function of the current review table, not a stored
field. -/
theorem title_rating_is_mean (s : Store) (tid : Nat) :
    (titleRating s tid = none ↔ titleReviews s tid = [])
  ∧ (titleReviews s tid ≠ [] →
      titleRating s tid =
        some (((titleReviews s tid).map (fun r => (r.score : ℚ))).sum
              / ((titleReviews s tid).length : ℚ))) := by
  cases h : titleReviews s tid with
  | nil => simp [titleRating, h, sqlAvg]
  | cons r rs =>
    constructor
    · simp [titleRating, h, sqlAvg]
    · intro _
      simp [titleRating, h, sqlAvg, List.length_map]

/-- C5: the theorem applied to a title with reviews scored 4 and 7 — the
rating is their mean 11/2. -/
theorem title_rating_is_mean_witness :
    titleReviews storeRated 1 ≠ [] ∧ titleRating storeRated 1 = some ((11 : ℚ) / 2) := by
  have hne : titleReviews storeRated 1 ≠ [] := by decide
  have h := (title_rating_is_mean storeRated 1).2 hne
  refine ⟨hne, ?_⟩
  rw [h]
  norm_num [titleReviews, storeRated]

/-! Section: Review-store lemmas -/

lemma createReview_ok_shape (s : Store) (tid author : Nat) (txt : String)
    (score : Nat) (s' : Store) (r : Review)
    (h : createReview s tid author txt score = .ok (s', r)) :
    r = ⟨freshReviewId s, tid, author, txt, score⟩
    ∧ s' = { s with reviews := s.reviews ++ [r] }
    ∧ s.reviews.any (fun x => x.title_id == tid && x.author_id == author) = false := by
  by_cases hc : s.reviews.any (fun x => x.title_id == tid && x.author_id == author)
    = true
  · simp [createReview, hc] at h
  · rw [Bool.not_eq_true] at hc
    simp only [createReview, hc, Bool.false_eq_true, if_false, Except.ok.injEq,
      Prod.mk.injEq] at h
    obtain ⟨hs, hr⟩ := h
    exact ⟨hr.symm, by rw [← hs, ← hr], hc⟩

lemma createReview_error_of_dup (s : Store) (tid author : Nat) (txt : String)
    (score : Nat)
    (hdup : ∃ r ∈ s.reviews, r.title_id = tid ∧ r.author_id = author) :
    (∃ e, createReview s tid author txt score = .error e)
    ∧ runCreateReview s tid author txt score = s := by
  have hany : s.reviews.any (fun x => x.title_id == tid && x.author_id == author)
      = true := by
    obtain ⟨r, hr, h1, h2⟩ := hdup
    exact List.any_eq_true.mpr ⟨r, hr, by simp [h1, h2]⟩
  exact ⟨⟨"UNIQUE constraint failed: review.title, review.author",
      by simp [createReview, hany]⟩,
    by simp [runCreateReview, createReview, hany]⟩

lemma patchKeeps (rid : Nat) (txt : String) (r : Review) :
    ((if r.id = rid then { r with text := txt } else r) : Review).title_id = r.title_id
    ∧ ((if r.id = rid then { r with text := txt } else r) : Review).author_id
        = r.author_id := by
  split <;> exact ⟨rfl, rfl⟩

lemma uniqueTitleAuthor_patch (s : Store) (rid : Nat) (txt : String)
    (h : uniqueTitleAuthor s) : uniqueTitleAuthor (patchReviewText s rid txt) := by
  unfold uniqueTitleAuthor patchReviewText
  rw [List.pairwise_map]
  refine h.imp fun {a b} hab hcon => hab ?_
  obtain ⟨ha1, ha2⟩ := patchKeeps rid txt a
  obtain ⟨hb1, hb2⟩ := patchKeeps rid txt b
  rw [ha1, hb1, ha2, hb2] at hcon
  exact hcon

lemma uniqueTitleAuthor_del (s : Store) (rid : Nat) (h : uniqueTitleAuthor s) :
    uniqueTitleAuthor (deleteReview s rid) :=
  List.Pairwise.sublist (List.filter_sublist _) h

lemma uniqueTitleAuthor_create (s : Store) (tid author : Nat) (txt : String)
    (score : Nat) (s' : Store) (r : Review) (h : uniqueTitleAuthor s)
    (hok : createReview s tid author txt score = .ok (s', r)) :
    uniqueTitleAuthor s' := by
  obtain ⟨hr, hs, hcond⟩ := createReview_ok_shape s tid author txt score s' r hok
  rw [hs]
  unfold uniqueTitleAuthor
  rw [List.pairwise_append]
  refine ⟨h, List.pairwise_singleton _ _, ?_⟩
  intro a ha b hb
  rw [List.mem_singleton] at hb
  subst hb
  intro hcon
  rw [hr] at hcon
  have hpa : (a.title_id == tid && a.author_id == author) = true := by
    simp [hcon.1, hcon.2]
  have hany : s.reviews.any (fun x => x.title_id == tid && x.author_id == author)
      = true := List.any_eq_true.mpr ⟨a, ha, hpa⟩
  rw [hcond] at hany
  cases hany

/-! Section: C6 -/

/-- C6: in every store state reachable through the API's mutating
operations, each `(title, author)` pair carries at most one review, and an
attempt to create a second review for a pair that already has one fails
with a uniqueness violation, leaving the store unchanged. -/
theorem review_unique_per_title_author (s : Store) (h : Reachable s) :
    uniqueTitleAuthor s
  ∧ ∀ tid author txt score,
      (∃ r ∈ s.reviews, r.title_id = tid ∧ r.author_id = author) →
      (∃ e, createReview s tid author txt score = .error e)
      ∧ runCreateReview s tid author txt score = s := by
  refine ⟨?_, fun tid author txt score hdup =>
    createReview_error_of_dup s tid author txt score hdup⟩
  induction h with
  | init => exact List.Pairwise.nil
  | addTitle t s hs ih => exact ih
  | addReview s tid author txt score s' r hs hok ih =>
      exact uniqueTitleAuthor_create s tid author txt score s' r ih hok
  | patchReview s rid txt hs ih => exact uniqueTitleAuthor_patch s rid txt ih
  | delReview s rid hs ih => exact uniqueTitleAuthor_del s rid ih
  | addComment s rid author txt hs ih => exact ih

/-- C6: the theorem applied to the reachable store `store1`, in which user
1 already reviewed title 1 and tries to review it a second time. -/
theorem review_unique_per_title_author_witness :
    uniqueTitleAuthor store1
  ∧ (∃ e, createReview store1 1 1 "again" 3 = .error e)
  ∧ runCreateReview store1 1 1 "again" 3 = store1 := by
  have h0 : Reachable store0 :=
    Reachable.addTitle ⟨1, "T"⟩ ⟨[], [], []⟩ Reachable.init
  have hreach : Reachable store1 :=
    Reachable.addReview store0 1 1 "good" 5 store1 ⟨1, 1, 1, "good", 5⟩ h0 (by decide)
  have h := review_unique_per_title_author store1 hreach
  have h2 := h.2 1 1 "again" 3 ⟨⟨1, 1, 1, "good", 5⟩, by decide, rfl, rfl⟩
  exact ⟨h.1, h2.1, h2.2⟩

/-! Section: C9 -/

/-- C9: review and comment operations resolve their parent from the path
parameters and fail with 404 when it is missing — review operations 404
exactly when no title carries the path's title id, comment operations 404
exactly when no review with the path's review id belongs to that title —
and creation stamps the requester as the author. -/
theorem nested_parent_resolution (s : Store) (uid tid rid : Nat) (txt : String)
    (score : Nat) :
    (get_title s tid = none ↔ ∀ t ∈ s.titles, t.id ≠ tid)
  ∧ (get_title s tid = none →
      reviewListOp s tid = .error 404
      ∧ reviewCreateOp s uid tid txt score = .error 404)
  ∧ (get_review s tid rid = none ↔
      ∀ r ∈ s.reviews, ¬(r.title_id = tid ∧ r.id = rid))
  ∧ (get_review s tid rid = none →
      commentListOp s tid rid = .error 404
      ∧ commentCreateOp s uid tid rid txt = .error 404)
  ∧ (∀ s' r, reviewCreateOp s uid tid txt score = .ok (s', r) → r.author_id = uid)
  ∧ (∀ s' c, commentCreateOp s uid tid rid txt = .ok (s', c) → c.author_id = uid) := by
  refine ⟨?_, ?_, ?_, ?_, ?_, ?_⟩
  · rw [get_title, List.find?_eq_none]
    simp
  · intro h
    exact ⟨by simp [reviewListOp, h], by simp [reviewCreateOp, h]⟩
  · rw [get_review, List.find?_eq_none]
    simp
  · intro h
    exact ⟨by simp [commentListOp, h], by simp [commentCreateOp, h]⟩
  · intro s' r h
    cases hg : get_title s tid with
    | none => simp [reviewCreateOp, hg] at h
    | some t =>
      simp only [reviewCreateOp, hg] at h
      cases hc : createReview s t.id uid txt score with
      | error e => simp only [hc] at h; cases h
      | ok p =>
        simp only [hc, Except.ok.injEq] at h
        subst h
        obtain ⟨hr, _, _⟩ := createReview_ok_shape s t.id uid txt score s' r hc
        rw [hr]
  · intro s' c h
    cases hg : get_review s tid rid with
    | none => simp [commentCreateOp, hg] at h
    | some r =>
      simp only [commentCreateOp, hg, Except.ok.injEq] at h
      have hc : c = (createComment s r.id uid txt).2 := by rw [h]
      rw [hc]
      rfl

/-- C9: the theorem applied to the empty store (both parents missing) and
to `store0`, where user 9's created review is stamped with author 9. -/
theorem nested_parent_resolution_witness :
    reviewListOp storeEmpty 1 = .error 404
  ∧ reviewCreateOp storeEmpty 9 1 "t" 5 = .error 404
  ∧ commentListOp storeEmpty 1 1 = .error 404
  ∧ commentCreateOp storeEmpty 9 1 1 "t" = .error 404
  ∧ reviewCreateOp store0 9 1 "t" 5 = .ok (store9, rev9)
  ∧ rev9.author_id = 9 := by
  have he := nested_parent_resolution storeEmpty 9 1 1 "t" 5
  have h1 := he.2.1 (by decide)
  have h2 := he.2.2.2.1 (by decide)
  have hok : reviewCreateOp store0 9 1 "t" 5 = .ok (store9, rev9) := by decide
  have h3 := (nested_parent_resolution store0 9 1 1 "t" 5).2.2.2.2.1 store9 rev9 hok
  exact ⟨h1.1, h1.2, h2.1, h2.2, hok, h3⟩

end Yamdb
